import Mathlib

/-!
Shallow embedding of the A-share backtest accounting engine
(`src/backtest/astock_engine.py`) and of the Sharpe/Sortino calculations of
the performance analyzer (`src/backtest/performance.py`).

Conventions of the embedding:
* Python `float` prices/cash are modelled as `ℚ`; Python `int` quantities as `ℤ`.
* Python `None`-able arguments are `Option _`; Python truthiness of an optional
  number (`None` and `0` are falsy) is made explicit by `truthyInt`/`truthyRat`.
* Python `%` on `int` with a positive modulus is `Int.emod` (both give the
  representative in `[0, m)`); Python `//` is `Int.fdiv` (floor division);
  Python `int(x)` on a float is truncation towards zero (`pyInt`).
* Python `dict` is an association list with unique keys: update-in-place keeps
  the entry position, a fresh key is appended, `del` removes the entry.
* The engine mutates `self`; here every operation takes and returns an
  `EngineState`, and operations that return a success flag return
  `Bool × EngineState`.
-/

namespace QuantLab

/-- Constructor arguments of `AStockBacktestEngine.__init__` (immutable market
rule configuration). -/
structure Config where
  initial_capital : ℚ
  commission_rate : ℚ
  min_commission : ℚ
  stamp_duty_rate : ℚ
  slippage : ℚ
  limit_up_ratio : ℚ
  limit_down_ratio : ℚ
deriving DecidableEq

/-- The default constructor arguments of `AStockBacktestEngine`. -/
def defaultConfig : Config :=
  { initial_capital := 100000
    commission_rate := 3 / 10000
    min_commission := 5
    stamp_duty_rate := 1 / 1000
    slippage := 1 / 1000
    limit_up_ratio := 1 / 10
    limit_down_ratio := -(1 / 10) }

/-- `AStockPosition` dataclass. Dates are modelled as period indices (`ℕ`). -/
structure AStockPosition where
  code : String
  name : String
  quantity : ℤ
  avg_cost : ℚ
  available : ℤ
  entry_date : ℕ
deriving DecidableEq

inductive TradeAction where
  | BUY
  | SELL
deriving DecidableEq

/-- `AStockTrade` dataclass. -/
structure AStockTrade where
  date : ℕ
  code : String
  name : String
  action : TradeAction
  price : ℚ
  quantity : ℤ
  amount : ℚ
  commission : ℚ
  stamp_duty : ℚ
  total_cost : ℚ
  reason : String
deriving DecidableEq

/-- The mutable attributes of `AStockBacktestEngine` set in `reset`, together
with the immutable configuration. -/
structure EngineState where
  cfg : Config
  cash : ℚ
  positions : List (String × AStockPosition)
  trades : List AStockTrade
  equity_curve : List ℚ
  dates : List ℕ
  today_buy : List (String × ℤ)
deriving DecidableEq

/-- Dictionary lookup (`d[k]` / `k in d`). -/
def alGet {α : Type} : List (String × α) → String → Option α
  | [], _ => none
  | (k', v) :: rest, k => if k' = k then some v else alGet rest k

/-- Dictionary update `d[k] = v`: replaces in place, appends a fresh key. -/
def alUpdate {α : Type} : List (String × α) → String → α → List (String × α)
  | [], k, v => [(k, v)]
  | (k', v') :: rest, k, v =>
      if k' = k then (k, v) :: rest else (k', v') :: alUpdate rest k v

/-- Dictionary deletion `del d[k]`. -/
def alErase {α : Type} : List (String × α) → String → List (String × α)
  | [], _ => []
  | (k', v') :: rest, k => if k' = k then rest else (k', v') :: alErase rest k

/-- Python truthiness of an optional integer (`None` and `0` are falsy). -/
def truthyInt : Option ℤ → Bool
  | none => false
  | some q => decide (q ≠ 0)

/-- Python truthiness of an optional float (`None` and `0.0` are falsy). -/
def truthyRat : Option ℚ → Bool
  | none => false
  | some a => decide (a ≠ 0)

/-- Python `int()` applied to a rational: truncation towards zero. -/
def pyInt (x : ℚ) : ℤ := if 0 ≤ x then ⌊x⌋ else ⌈x⌉

/-- `reset`: the state a fresh or reset engine is in. -/
def resetState (cfg : Config) : EngineState :=
  { cfg := cfg
    cash := cfg.initial_capital
    positions := []
    trades := []
    equity_curve := []
    dates := []
    today_buy := [] }

/-- `AStockBacktestEngine.reset` on an existing engine. -/
def reset (s : EngineState) : EngineState := resetState s.cfg

/-- `_calculate_commission`. -/
def calculate_commission (cfg : Config) (amount : ℚ) : ℚ :=
  max (amount * cfg.commission_rate) cfg.min_commission

/-- `_calculate_stamp_duty`. -/
def calculate_stamp_duty (cfg : Config) (amount : ℚ) : ℚ :=
  amount * cfg.stamp_duty_rate

/-- `_get_limit_price`. -/
def get_limit_price (cfg : Config) (price : ℚ) (action : TradeAction) : ℚ :=
  match action with
  | .BUY => price * (1 + cfg.limit_up_ratio)
  | .SELL => price * (1 + cfg.limit_down_ratio)

/-- `can_buy` (the message string of the Python pair is dropped; only the
boolean is ever read by `buy`). -/
def can_buy (s : EngineState) (price : ℚ) (quantity : ℤ) : Bool :=
  let limit_price := get_limit_price s.cfg price .BUY
  if price ≥ limit_price then false
  else
    let cost := price * (quantity : ℚ) * (1 + s.cfg.slippage)
    let commission := calculate_commission s.cfg cost
    let total_cost := cost + commission
    if total_cost > s.cash then false else true

/-- `can_sell` (boolean part). -/
def can_sell (s : EngineState) (code : String) (quantity : ℤ) : Bool :=
  match alGet s.positions code with
  | none => false
  | some pos => if pos.available < quantity then false else true

/-- The quantity-resolution prefix of `buy`: lot rounding of an explicit
quantity, conversion of an `amount` request, and the final `if not quantity`
rejection (`none` = rejected). -/
def resolveBuyQty (quantity : Option ℤ) (amount : Option ℚ) (price : ℚ) :
    Option ℤ :=
  let q1 : Option ℤ :=
    match quantity with
    | some q => if q ≠ 0 ∧ q % 100 ≠ 0 then some (Int.fdiv q 100 * 100) else some q
    | none => none
  let q2 : Option ℤ :=
    if truthyRat amount ∧ ¬ truthyInt q1 then
      some (max (pyInt (amount.getD 0 / price / 100) * 100) 100)
    else q1
  if truthyInt q2 then q2 else none

/-- The mutation suffix of `buy` (runs only after `can_buy` succeeded). -/
def execBuy (s : EngineState) (date : ℕ) (code name : String) (price : ℚ)
    (q : ℤ) (reason : String) : EngineState :=
  let exec_price := price * (1 + s.cfg.slippage)
  let gross_amount := exec_price * (q : ℚ)
  let commission := calculate_commission s.cfg gross_amount
  let total_cost := gross_amount + commission
  let positions :=
    match alGet s.positions code with
    | some pos =>
        let total_cost_basis := pos.avg_cost * (pos.quantity : ℚ) + exec_price * (q : ℚ)
        let newq := pos.quantity + q
        alUpdate s.positions code
          { pos with
            quantity := newq
            avg_cost := total_cost_basis / (newq : ℚ)
            available := newq }
    | none =>
        alUpdate s.positions code
          { code := code, name := name, quantity := q, avg_cost := exec_price
            available := 0, entry_date := date }
  let today_buy := alUpdate s.today_buy code ((alGet s.today_buy code).getD 0 + q)
  let trades := s.trades ++
    [{ date := date, code := code, name := name, action := .BUY
       price := exec_price, quantity := q, amount := gross_amount
       commission := commission, stamp_duty := 0, total_cost := total_cost
       reason := reason }]
  { s with
    cash := s.cash - total_cost
    positions := positions
    today_buy := today_buy
    trades := trades }

/-- `AStockBacktestEngine.buy`. -/
def buy (s : EngineState) (date : ℕ) (code name : String) (price : ℚ)
    (quantity : Option ℤ) (amount : Option ℚ) (reason : String) :
    Bool × EngineState :=
  match resolveBuyQty quantity amount price with
  | none => (false, s)
  | some q =>
      if can_buy s price q then (true, execBuy s date code name price q reason)
      else (false, s)

/-- The quantity-resolution prefix of `sell`, including the clamp
`quantity = min(quantity, pos.available)`. -/
def resolveSellQty (pos : AStockPosition) (quantity : Option ℤ)
    (percent : Option ℚ) : ℤ :=
  let q : ℤ :=
    if truthyRat percent then pyInt ((pos.available : ℚ) * percent.getD 0)
    else if ¬ truthyInt quantity then pos.available
    else quantity.getD 0
  min q pos.available

/-- The mutation suffix of `sell`. -/
def execSell (s : EngineState) (date : ℕ) (code : String)
    (pos : AStockPosition) (price : ℚ) (q : ℤ) (reason : String) :
    EngineState :=
  let exec_price := price * (1 - s.cfg.slippage)
  let gross_amount := exec_price * (q : ℚ)
  let commission := calculate_commission s.cfg gross_amount
  let stamp_duty := calculate_stamp_duty s.cfg gross_amount
  let total_proceeds := gross_amount - commission - stamp_duty
  let newq := pos.quantity - q
  let positions :=
    if newq ≤ 0 then alErase s.positions code
    else alUpdate s.positions code
      { pos with quantity := newq, available := pos.available - q }
  let trades := s.trades ++
    [{ date := date, code := code, name := pos.name, action := .SELL
       price := exec_price, quantity := q, amount := gross_amount
       commission := commission, stamp_duty := stamp_duty
       total_cost := -total_proceeds, reason := reason }]
  { s with
    cash := s.cash + total_proceeds
    positions := positions
    trades := trades }

/-- `AStockBacktestEngine.sell`. -/
def sell (s : EngineState) (date : ℕ) (code : String) (price : ℚ)
    (quantity : Option ℤ) (percent : Option ℚ) (reason : String) :
    Bool × EngineState :=
  match alGet s.positions code with
  | none => (false, s)
  | some pos =>
      let q := resolveSellQty pos quantity percent
      if q ≤ 0 then (false, s)
      else if price ≤ get_limit_price s.cfg price .SELL then (false, s)
      else (true, execSell s date code pos price q reason)

/-- `update_t1`: every quantity bought "today" is added to the corresponding
position's available quantity, then the today-buy map is cleared. -/
def update_t1 (s : EngineState) : EngineState :=
  let positions := s.today_buy.foldl
    (fun ps cq =>
      match alGet ps cq.1 with
      | some pos => alUpdate ps cq.1 { pos with available := pos.available + cq.2 }
      | none => ps)
    s.positions
  { s with positions := positions, today_buy := [] }

/-- `get_equity`: cash plus quantity times price for every held instrument
present in the price map. -/
def get_equity (s : EngineState) (prices : List (String × ℚ)) : ℚ :=
  s.positions.foldl
    (fun acc cp =>
      match alGet prices cp.1 with
      | some p => acc + (cp.2.quantity : ℚ) * p
      | none => acc)
    s.cash

/-- The strategy signal values understood by `run` (`None` is `Option.none`). -/
inductive Signal where
  | BUY
  | SELL
  | SELL_ALL
deriving DecidableEq

/-- A strategy function `(date, data.iloc[:i+1], engine) -> signal`, with the
date modelled as the period index and the visible data as the list of closes
up to and including the current period. -/
def Strategy : Type :=
  ℕ → List ℚ → EngineState → Option Signal

/-- The fields of `AStockBacktestResult` that the claims refer to
(`initial_capital`, `final_capital`, `total_return`, `total_return_pct`,
`trading_days`, `trades`); the risk and win/loss statistics fields computed by
`calculate_result` are not needed by any claim and are not modelled. -/
structure ResultStats where
  initial_capital : ℚ
  final_capital : ℚ
  total_return : ℚ
  total_return_pct : ℚ
  trading_days : ℕ
  trades : List AStockTrade
deriving DecidableEq

/-- The basic-statistics part of `calculate_result`: `None` on an empty equity
curve, otherwise final capital is the last recorded equity snapshot. -/
def calculate_result (s : EngineState) : Option ResultStats :=
  match s.equity_curve with
  | [] => none
  | _ =>
      let final_capital := s.equity_curve.getLastD 0
      some
        { initial_capital := s.cfg.initial_capital
          final_capital := final_capital
          total_return := final_capital - s.cfg.initial_capital
          total_return_pct := (final_capital / s.cfg.initial_capital - 1) * 100
          trading_days := s.equity_curve.length
          trades := s.trades }

/-- One iteration of the `run` loop at period `i`: T+1 settlement (skipped at
`i = 0`), signal evaluation, signal execution with the default sizing policy
(half the cash on BUY, half the available position on SELL, everything on
SELL_ALL), and the equity snapshot. -/
def runStep (closes : List ℚ) (strat : Strategy) (code name : String)
    (s : EngineState) (i : ℕ) : EngineState :=
  let px := closes.getD i 0
  let s := if 0 < i then update_t1 s else s
  let signal := strat i (closes.take (i + 1)) s
  let s :=
    match signal with
    | some .BUY => (buy s i code name px none (some (s.cash * (1 / 2))) "策略信号").2
    | some .SELL => (sell s i code px none (some (1 / 2)) "策略信号").2
    | some .SELL_ALL => (sell s i code px (some 999999) none "清仓信号").2
    | none => s
  let equity := get_equity s [(code, px)]
  { s with equity_curve := s.equity_curve ++ [equity], dates := s.dates ++ [i] }

/-- The main loop of `run` over the enumerated price rows. -/
def runLoop (closes : List ℚ) (strat : Strategy) (code name : String)
    (s : EngineState) : EngineState :=
  (List.range closes.length).foldl (runStep closes strat code name) s

/-- The terminal step of `run`: if the instrument is still held, sell it at
the final close price with reason "回测结束平仓". -/
def finalLiquidate (closes : List ℚ) (code : String) (s : EngineState) :
    EngineState :=
  match alGet s.positions code with
  | some _ =>
      match closes.getLast? with
      | some final_price =>
          (sell s (closes.length - 1) code final_price none none "回测结束平仓").2
      | none => s
  | none => s

/-- `AStockBacktestEngine.run`: reset, iterate, final liquidation, result.
Returns the end state of the engine together with the result record. -/
def run (s : EngineState) (closes : List ℚ) (strat : Strategy)
    (code name : String) : EngineState × Option ResultStats :=
  let s := reset s
  let s := runLoop closes strat code name s
  let s := finalLiquidate closes code s
  (s, calculate_result s)

/-!
Performance analyzer (`src/backtest/performance.py`). The return series
`self.returns` is modelled as a list of rationals. pandas `Series.std()` uses
`ddof = 1`: on a series of fewer than two values it returns `NaN`, and a
comparison `NaN == 0` is `False`. `NaN` results are modelled as `Option.none`
on the real-valued results, and the `std == 0` comparison is modelled by the
boolean `stdEqZeroB` (for a series of length at least two,
`sqrt(variance) = 0` exactly when the sample variance is `0`).
-/

/-- Arithmetic mean of a list of rationals (pandas `Series.mean()`; only ever
used on nonempty series here). -/
def seriesMean (l : List ℚ) : ℚ := l.sum / (l.length : ℚ)

/-- Sample variance with `ddof = 1` (the square of pandas `Series.std()`;
only meaningful for series of length at least two). -/
def sampleVar (l : List ℚ) : ℚ :=
  (l.map (fun x => (x - seriesMean l) ^ 2)).sum / ((l.length : ℚ) - 1)

/-- The comparison `series.std() == 0`: `False` when the standard deviation is
`NaN` (fewer than two values), otherwise a test of zero sample variance. -/
def stdEqZeroB (l : List ℚ) : Bool :=
  decide (2 ≤ l.length) && decide (sampleVar l = 0)

/-- pandas `Series.std()` (`ddof = 1`): `NaN` (`none`) on fewer than two
values, otherwise the square root of the sample variance. -/
noncomputable def pandasStd (l : List ℚ) : Option ℝ :=
  if 2 ≤ l.length then some (Real.sqrt (sampleVar l)) else none

/-- `PerformanceAnalyzer.calculate_sharpe_ratio` as a function of the return
series; `none` is a `NaN` result (a single return makes the denominator
`NaN`, which propagates). -/
noncomputable def calculate_sharpe (risk_free_rate : ℚ) (periods_per_year : ℕ)
    (returns : List ℚ) : Option ℝ :=
  if returns.length = 0 ∨ stdEqZeroB returns = true then some 0
  else
    let excess_returns :=
      returns.map (fun r => r - risk_free_rate / (periods_per_year : ℚ))
    match pandasStd returns with
    | none => none
    | some sd =>
        some (Real.sqrt (periods_per_year : ℝ) * ((seriesMean excess_returns : ℚ) : ℝ) / sd)

/-- `PerformanceAnalyzer.calculate_sortino_ratio` as a function of the return
series; `none` is a `NaN` result (a single downside return makes the
denominator `NaN`, which propagates). -/
noncomputable def calculate_sortino (risk_free_rate : ℚ) (periods_per_year : ℕ)
    (returns : List ℚ) : Option ℝ :=
  if returns.length = 0 then some 0
  else
    let excess_returns :=
      returns.map (fun r => r - risk_free_rate / (periods_per_year : ℚ))
    let downside_returns := returns.filter (fun r => r < 0)
    if downside_returns.length = 0 ∨ stdEqZeroB downside_returns = true then some 0
    else
      match pandasStd downside_returns with
      | none => none
      | some downside_std =>
          some (Real.sqrt (periods_per_year : ℝ) *
            ((seriesMean excess_returns : ℚ) : ℝ) / downside_std)

/-!
Concrete executions of the engine, used to settle the claims on explicit
inputs. `sA…` runs the engine with its default configuration: buy 100 shares
at 10, settle (T+1), buy another 100 shares at 10, settle again. `sB…` starts
with exactly the capital one 100-share buy at price 100 costs and then sells
at a price so low that the minimum commission exceeds the gross proceeds.
`sC…` buys 200 shares and settles, so the position is fully available.
`sD…` interleaves a partial sell between two buys at different prices.
-/

def sA0 : EngineState := resetState defaultConfig

def sA1 : EngineState := (buy sA0 0 "600000" "X" 10 (some 100) none "").2

def sA2 : EngineState := update_t1 sA1

def sA3 : EngineState := (buy sA2 1 "600000" "X" 10 (some 100) none "").2

def sA4 : EngineState := update_t1 sA3

def cfgB : Config := { defaultConfig with initial_capital := 10015 }

def sB0 : EngineState := resetState cfgB

def sB1 : EngineState := (buy sB0 0 "600000" "X" 100 (some 100) none "").2

def sB2 : EngineState := update_t1 sB1

def sB3 : EngineState := (sell sB2 1 "600000" (1 / 100) none none "").2

def sC1 : EngineState := (buy sA0 0 "600000" "X" 10 (some 200) none "").2

def sC2 : EngineState := update_t1 sC1

def sD3 : EngineState := (sell sA2 1 "600000" 10 (some 50) none "").2

def sD4 : EngineState := (buy sD3 1 "600000" "X" 20 (some 100) none "").2

/-- The strategy used for the C7 counterexample: emit a BUY signal on the
last of two periods, nothing before. -/
def stratC7 : Strategy := fun i _ _ => if i = 1 then some .BUY else none

/-- The simp set that evaluates one engine operation on a literal state. -/
lemma sA1_eq : sA1 =
    { cfg := defaultConfig, cash := 98994
      positions := [("600000", ⟨"600000", "X", 100, 1001 / 100, 0, 0⟩)]
      trades := [⟨0, "600000", "X", .BUY, 1001 / 100, 100, 1001, 5, 0, 1006, ""⟩]
      equity_curve := [], dates := [], today_buy := [("600000", 100)] } := by
  unfold sA1 sA0
  norm_num [buy, resolveBuyQty, can_buy, execBuy, calculate_commission,
    get_limit_price, truthyInt, truthyRat, alGet, alUpdate, resetState,
    defaultConfig, max_def]

lemma sA2_eq : sA2 =
    { cfg := defaultConfig, cash := 98994
      positions := [("600000", ⟨"600000", "X", 100, 1001 / 100, 100, 0⟩)]
      trades := [⟨0, "600000", "X", .BUY, 1001 / 100, 100, 1001, 5, 0, 1006, ""⟩]
      equity_curve := [], dates := [], today_buy := [] } := by
  unfold sA2
  rw [sA1_eq]
  norm_num [update_t1, alGet, alUpdate]

lemma sA3_eq : sA3 =
    { cfg := defaultConfig, cash := 97988
      positions := [("600000", ⟨"600000", "X", 200, 1001 / 100, 200, 0⟩)]
      trades := [⟨0, "600000", "X", .BUY, 1001 / 100, 100, 1001, 5, 0, 1006, ""⟩,
        ⟨1, "600000", "X", .BUY, 1001 / 100, 100, 1001, 5, 0, 1006, ""⟩]
      equity_curve := [], dates := [], today_buy := [("600000", 100)] } := by
  unfold sA3
  rw [sA2_eq]
  norm_num [buy, resolveBuyQty, can_buy, execBuy, calculate_commission,
    get_limit_price, truthyInt, truthyRat, alGet, alUpdate, defaultConfig,
    max_def]

lemma sA4_eq : sA4 =
    { cfg := defaultConfig, cash := 97988
      positions := [("600000", ⟨"600000", "X", 200, 1001 / 100, 300, 0⟩)]
      trades := [⟨0, "600000", "X", .BUY, 1001 / 100, 100, 1001, 5, 0, 1006, ""⟩,
        ⟨1, "600000", "X", .BUY, 1001 / 100, 100, 1001, 5, 0, 1006, ""⟩]
      equity_curve := [], dates := [], today_buy := [] } := by
  unfold sA4
  rw [sA3_eq]
  norm_num [update_t1, alGet, alUpdate]

lemma sB1_eq : sB1 =
    { cfg := cfgB, cash := 0
      positions := [("600000", ⟨"600000", "X", 100, 1001 / 10, 0, 0⟩)]
      trades := [⟨0, "600000", "X", .BUY, 1001 / 10, 100, 10010, 5, 0, 10015, ""⟩]
      equity_curve := [], dates := [], today_buy := [("600000", 100)] } := by
  unfold sB1 sB0
  norm_num [buy, resolveBuyQty, can_buy, execBuy, calculate_commission,
    get_limit_price, truthyInt, truthyRat, alGet, alUpdate, resetState,
    cfgB, defaultConfig, max_def]

lemma sB2_eq : sB2 =
    { cfg := cfgB, cash := 0
      positions := [("600000", ⟨"600000", "X", 100, 1001 / 10, 100, 0⟩)]
      trades := [⟨0, "600000", "X", .BUY, 1001 / 10, 100, 10010, 5, 0, 10015, ""⟩]
      equity_curve := [], dates := [], today_buy := [] } := by
  unfold sB2
  rw [sB1_eq]
  norm_num [update_t1, alGet, alUpdate]

lemma sB3_cash : sB3.cash = -4001999 / 1000000 := by
  unfold sB3
  rw [sB2_eq]
  norm_num [sell, resolveSellQty, execSell, calculate_commission,
    calculate_stamp_duty, get_limit_price, truthyInt, truthyRat, alGet,
    alErase, cfgB, defaultConfig, max_def]

lemma sC1_eq : sC1 =
    { cfg := defaultConfig, cash := 97993
      positions := [("600000", ⟨"600000", "X", 200, 1001 / 100, 0, 0⟩)]
      trades := [⟨0, "600000", "X", .BUY, 1001 / 100, 200, 2002, 5, 0, 2007, ""⟩]
      equity_curve := [], dates := [], today_buy := [("600000", 200)] } := by
  unfold sC1 sA0
  norm_num [buy, resolveBuyQty, can_buy, execBuy, calculate_commission,
    get_limit_price, truthyInt, truthyRat, alGet, alUpdate, resetState,
    defaultConfig, max_def]

lemma sC2_eq : sC2 =
    { cfg := defaultConfig, cash := 97993
      positions := [("600000", ⟨"600000", "X", 200, 1001 / 100, 200, 0⟩)]
      trades := [⟨0, "600000", "X", .BUY, 1001 / 100, 200, 2002, 5, 0, 2007, ""⟩]
      equity_curve := [], dates := [], today_buy := [] } := by
  unfold sC2
  rw [sC1_eq]
  norm_num [update_t1, alGet, alUpdate]

lemma sD3_eq : sD3 =
    { cfg := defaultConfig, cash := 198976001 / 2000
      positions := [("600000", ⟨"600000", "X", 50, 1001 / 100, 50, 0⟩)]
      trades := [⟨0, "600000", "X", .BUY, 1001 / 100, 100, 1001, 5, 0, 1006, ""⟩,
        ⟨1, "600000", "X", .SELL, 999 / 100, 50, 999 / 2, 5, 999 / 2000,
          -(988001 / 2000), ""⟩]
      equity_curve := [], dates := [], today_buy := [] } := by
  unfold sD3
  rw [sA2_eq]
  norm_num [sell, resolveSellQty, execSell, calculate_commission,
    calculate_stamp_duty, get_limit_price, truthyInt, truthyRat, alGet,
    alUpdate, alErase, defaultConfig, max_def]

lemma sD4_eq : sD4 =
    { cfg := defaultConfig, cash := 194962001 / 2000
      positions := [("600000", ⟨"600000", "X", 150, 1001 / 60, 150, 0⟩)]
      trades := [⟨0, "600000", "X", .BUY, 1001 / 100, 100, 1001, 5, 0, 1006, ""⟩,
        ⟨1, "600000", "X", .SELL, 999 / 100, 50, 999 / 2, 5, 999 / 2000,
          -(988001 / 2000), ""⟩,
        ⟨1, "600000", "X", .BUY, 1001 / 50, 100, 2002, 5, 0, 2007, ""⟩]
      equity_curve := [], dates := [], today_buy := [("600000", 100)] } := by
  unfold sD4
  rw [sD3_eq]
  norm_num [buy, resolveBuyQty, can_buy, execBuy, calculate_commission,
    get_limit_price, truthyInt, truthyRat, alGet, alUpdate, defaultConfig,
    max_def]

/-- C1 (code bug): after buy, settle, buy, settle on the same instrument the
position holds 200 shares but 300 are marked available — the invariant
`available ≤ quantity` fails, because `buy` sets `available` to the full new
quantity and `update_t1` then adds the same day's purchase again. -/
theorem C1_available_exceeds_quantity :
    (alGet sA4.positions "600000").map AStockPosition.quantity = some 200 ∧
    (alGet sA4.positions "600000").map AStockPosition.available = some 300 := by
  rw [sA4_eq]
  norm_num [alGet]

/-- C3 (code bug): buying into an existing position does not leave `available`
unchanged — before the second buy 100 shares are available, immediately after
it 200 are (the code sets `available` to the new total quantity, contradicting
its own T+1 comment). -/
theorem C3_buy_overwrites_available :
    (alGet sA2.positions "600000").map AStockPosition.available = some 100 ∧
    (alGet sA3.positions "600000").map AStockPosition.available = some 200 ∧
    (alGet sA3.positions "600000").map AStockPosition.quantity = some 200 := by
  rw [sA2_eq, sA3_eq]
  norm_num [alGet]

/-- C2 counterexample: starting from non-negative capital, a buy consuming all
cash followed by a T+1 settle and a sell at price 0.01 leaves the cash balance
at -4.001999 — the minimum commission exceeds the gross proceeds and the sell
drives cash negative. -/
theorem C2_sell_drives_cash_negative : sB3.cash < 0 := by
  rw [sB3_cash]
  norm_num

/-- C4 counterexample: a buy with quantity -100 is accepted (and mutates cash
upward from 100000 to 100996), and a buy whose amount of 500 at price 10
rounds to zero lots is bumped to one lot and accepted — neither is rejected as
the claim states. -/
theorem C4_negative_and_zero_lot_buys_accepted :
    (buy sA0 0 "600000" "X" 10 (some (-100)) none "").1 = true ∧
    ((buy sA0 0 "600000" "X" 10 (some (-100)) none "").2).cash = 100996 ∧
    (buy sA0 0 "600000" "X" 10 none (some 500) "").1 = true ∧
    (alGet ((buy sA0 0 "600000" "X" 10 none (some 500) "").2).positions
        "600000").map AStockPosition.quantity = some 100 := by
  unfold sA0
  norm_num [buy, resolveBuyQty, can_buy, execBuy, calculate_commission,
    get_limit_price, truthyInt, truthyRat, pyInt, alGet, alUpdate, resetState,
    defaultConfig, max_def]

/-- C5 counterexample: with 200 shares held and all 200 available, a sell
requesting 201 (more than available) is not rejected — it is clamped to 200,
executes, and removes the position; and with a freshly bought position whose
available quantity is 0, selling exactly the available quantity fails and the
position is not removed. -/
theorem C5_oversell_clamps_and_executes :
    (sell sC2 1 "600000" 10 (some 201) none "").1 = true ∧
    alGet ((sell sC2 1 "600000" 10 (some 201) none "").2).positions "600000" =
      none ∧
    (sell sC1 0 "600000" 10 (some 0) none "").1 = false ∧
    (alGet sC1.positions "600000").map AStockPosition.available = some 0 := by
  rw [sC2_eq, sC1_eq]
  norm_num [sell, resolveSellQty, execSell, calculate_commission,
    calculate_stamp_duty, get_limit_price, truthyInt, truthyRat, alGet,
    alUpdate, alErase, defaultConfig, max_def]

/-- C7 counterexample: running a strategy that buys on the last of two periods
ends the backtest with an open 5000-share position (its shares are not yet
settlement-available, so the terminal liquidation sell resolves to quantity 0
and is rejected), and the reported final capital 99934.985 is the
mark-to-market snapshot including that open position. -/
theorem C7_backtest_ends_with_open_position :
    (alGet ((run sA0 [10, 10] stratC7 "600000" "X").1).positions "600000").map
        AStockPosition.quantity = some 5000 ∧
    ((run sA0 [10, 10] stratC7 "600000" "X").2).map ResultStats.final_capital =
      some (19986997 / 200) := by
  have h2 : runStep [10, 10] stratC7 "600000" "X" sA0 0 =
      { cfg := defaultConfig, cash := 100000, positions := [], trades := []
        equity_curve := [100000], dates := [0], today_buy := [] } := by
    unfold runStep stratC7 sA0
    norm_num [get_equity, resetState, defaultConfig]
  have h3 : runStep [10, 10] stratC7 "600000" "X"
      { cfg := defaultConfig, cash := 100000, positions := [], trades := []
        equity_curve := [100000], dates := [0], today_buy := [] } 1 =
      { cfg := defaultConfig, cash := 9986997 / 200
        positions := [("600000", ⟨"600000", "X", 5000, 1001 / 100, 0, 1⟩)]
        trades := [⟨1, "600000", "X", .BUY, 1001 / 100, 5000, 50050,
          3003 / 200, 0, 10013003 / 200, "策略信号"⟩]
        equity_curve := [100000, 19986997 / 200], dates := [0, 1]
        today_buy := [("600000", 5000)] } := by
    unfold runStep stratC7
    norm_num [update_t1, buy, resolveBuyQty, can_buy, execBuy,
      calculate_commission, get_limit_price, truthyInt, truthyRat, pyInt,
      alGet, alUpdate, get_equity, defaultConfig, max_def]
  have h1 : runLoop [10, 10] stratC7 "600000" "X" sA0 =
      { cfg := defaultConfig, cash := 9986997 / 200
        positions := [("600000", ⟨"600000", "X", 5000, 1001 / 100, 0, 1⟩)]
        trades := [⟨1, "600000", "X", .BUY, 1001 / 100, 5000, 50050,
          3003 / 200, 0, 10013003 / 200, "策略信号"⟩]
        equity_curve := [100000, 19986997 / 200], dates := [0, 1]
        today_buy := [("600000", 5000)] } := by
    unfold runLoop
    rw [show List.range ([(10 : ℚ), 10].length) = [0, 1] from rfl]
    rw [List.foldl_cons, List.foldl_cons, List.foldl_nil, h2, h3]
  have h4 : finalLiquidate [10, 10] "600000"
      { cfg := defaultConfig, cash := 9986997 / 200
        positions := [("600000", ⟨"600000", "X", 5000, 1001 / 100, 0, 1⟩)]
        trades := [⟨1, "600000", "X", .BUY, 1001 / 100, 5000, 50050,
          3003 / 200, 0, 10013003 / 200, "策略信号"⟩]
        equity_curve := [100000, 19986997 / 200], dates := [0, 1]
        today_buy := [("600000", 5000)] } =
      { cfg := defaultConfig, cash := 9986997 / 200
        positions := [("600000", ⟨"600000", "X", 5000, 1001 / 100, 0, 1⟩)]
        trades := [⟨1, "600000", "X", .BUY, 1001 / 100, 5000, 50050,
          3003 / 200, 0, 10013003 / 200, "策略信号"⟩]
        equity_curve := [100000, 19986997 / 200], dates := [0, 1]
        today_buy := [("600000", 5000)] } := by
    norm_num [finalLiquidate, alGet, sell, resolveSellQty, truthyInt,
      truthyRat, List.getLast?]
  have hrun1 : (run sA0 [10, 10] stratC7 "600000" "X").1 =
      { cfg := defaultConfig, cash := 9986997 / 200
        positions := [("600000", ⟨"600000", "X", 5000, 1001 / 100, 0, 1⟩)]
        trades := [⟨1, "600000", "X", .BUY, 1001 / 100, 5000, 50050,
          3003 / 200, 0, 10013003 / 200, "策略信号"⟩]
        equity_curve := [100000, 19986997 / 200], dates := [0, 1]
        today_buy := [("600000", 5000)] } := by
    show finalLiquidate [10, 10] "600000"
        (runLoop [10, 10] stratC7 "600000" "X" (reset sA0)) = _
    rw [show reset sA0 = sA0 from rfl, h1, h4]
  have hrun2 : (run sA0 [10, 10] stratC7 "600000" "X").2 =
      calculate_result
        { cfg := defaultConfig, cash := 9986997 / 200
          positions := [("600000", ⟨"600000", "X", 5000, 1001 / 100, 0, 1⟩)]
          trades := [⟨1, "600000", "X", .BUY, 1001 / 100, 5000, 50050,
            3003 / 200, 0, 10013003 / 200, "策略信号"⟩]
          equity_curve := [100000, 19986997 / 200], dates := [0, 1]
          today_buy := [("600000", 5000)] } := by
    show calculate_result (finalLiquidate [10, 10] "600000"
        (runLoop [10, 10] stratC7 "600000" "X" (reset sA0))) = _
    rw [show reset sA0 = sA0 from rfl, h1, h4]
  rw [hrun1, hrun2]
  norm_num [alGet, calculate_result]

/-- C8 counterexample: after buy 100 at 10, settle, sell 50, buy 100 at 20,
the stored weighted-average cost is 1001/60 ≈ 16.68, while
`Σ(exec_price_i × qty_i) / Σ(qty_i)` over the two buys since the position was
opened is 3003/200 = 15.015 — the claimed formula fails once a partial sell
interleaves the buys. -/
theorem C8_interleaved_sell_breaks_sum_formula :
    (alGet sD4.positions "600000").map AStockPosition.avg_cost =
      some (1001 / 60) ∧
    (1001 / 60 : ℚ) ≠
      (10 * (1 + defaultConfig.slippage) * 100 +
        20 * (1 + defaultConfig.slippage) * 100) / (100 + 100) := by
  rw [sD4_eq]
  norm_num [alGet, defaultConfig]

lemma alGet_alUpdate_self {α : Type} (m : List (String × α)) (k : String)
    (v : α) : alGet (alUpdate m k v) k = some v := by
  induction m with
  | nil => simp [alUpdate, alGet]
  | cons kv rest ih =>
      by_cases hk : kv.1 = k
      · simp [alUpdate, hk, alGet]
      · simp [alUpdate, hk, alGet, ih]

lemma alGet_eq_none_of_not_mem {α : Type} (m : List (String × α)) (k : String)
    (h : k ∉ m.map Prod.fst) : alGet m k = none := by
  induction m with
  | nil => rfl
  | cons kv rest ih =>
      simp only [List.map_cons, List.mem_cons] at h
      push_neg at h
      have hne : ¬ kv.1 = k := fun he => h.1 he.symm
      simp [alGet, hne, ih h.2]

lemma alGet_alErase_self {α : Type} (m : List (String × α)) (k : String)
    (h : (m.map Prod.fst).Nodup) : alGet (alErase m k) k = none := by
  induction m with
  | nil => rfl
  | cons kv rest ih =>
      simp only [List.map_cons, List.nodup_cons] at h
      by_cases hk : kv.1 = k
      · simp only [alErase, if_pos hk]
        exact alGet_eq_none_of_not_mem rest k (hk ▸ h.1)
      · simp [alErase, hk, alGet, ih h.2]

/-- C2 (amended): starting from a non-negative cash balance, a buy can never
drive cash negative — any buy whose total cost (gross notional plus
commission) exceeds the current cash is rejected by `can_buy`, and every
rejected buy returns before mutating the state. (Sells, by contrast, can
drive cash negative, see the counterexample.) -/
theorem C2_buy_keeps_cash_nonneg (s : EngineState) (date : ℕ)
    (code name : String) (price : ℚ) (quantity : Option ℤ) (amount : Option ℚ)
    (reason : String) (h : 0 ≤ s.cash) :
    0 ≤ ((buy s date code name price quantity amount reason).2).cash ∧
    ((buy s date code name price quantity amount reason).1 = false →
      (buy s date code name price quantity amount reason).2 = s) := by
  unfold buy
  cases hq : resolveBuyQty quantity amount price with
  | none => exact ⟨h, fun _ => rfl⟩
  | some q =>
      dsimp only
      by_cases hcb : can_buy s price q = true
      · rw [if_pos hcb]
        refine ⟨?_, by simp⟩
        have hle : price * (q : ℚ) * (1 + s.cfg.slippage) +
            calculate_commission s.cfg
              (price * (q : ℚ) * (1 + s.cfg.slippage)) ≤ s.cash := by
          unfold can_buy at hcb
          dsimp only at hcb
          split_ifs at hcb with h1 h2
          linarith [not_lt.mp h2]
        have harr : price * (1 + s.cfg.slippage) * (q : ℚ) =
            price * (q : ℚ) * (1 + s.cfg.slippage) := by ring
        dsimp only [execBuy]
        rw [harr]
        linarith [hle]
      · rw [if_neg hcb]
        exact ⟨h, fun _ => rfl⟩

/-- C2 witness: instantiating the buy non-negativity theorem on the default
engine buying 100 shares at price 10. -/
theorem C2_buy_keeps_cash_nonneg_witness :
    0 ≤ ((buy sA0 0 "600000" "X" 10 (some 100) none "").2).cash ∧
    ((buy sA0 0 "600000" "X" 10 (some 100) none "").1 = false →
      (buy sA0 0 "600000" "X" 10 (some 100) none "").2 = sA0) :=
  C2_buy_keeps_cash_nonneg sA0 0 "600000" "X" 10 (some 100) none ""
    (by norm_num [sA0, resetState, defaultConfig])

/-- C4 (amended): a buy whose size request is missing or zero is rejected
before any mutation, and a sell whose requested quantity is negative is
rejected before any mutation; a buy with a negative quantity or with an
amount rounding to zero lots is, however, accepted (see the counterexample). -/
theorem C4_zero_or_missing_size_rejected (s : EngineState) (date : ℕ)
    (code name : String) (price : ℚ) (reason : String) (q : ℤ) (hq : q < 0) :
    buy s date code name price (some 0) none reason = (false, s) ∧
    buy s date code name price none none reason = (false, s) ∧
    sell s date code price (some q) none reason = (false, s) := by
  refine ⟨rfl, rfl, ?_⟩
  unfold sell
  cases hp : alGet s.positions code with
  | none => rfl
  | some pos =>
      have hres : resolveSellQty pos (some q) none ≤ 0 := by
        have : min q pos.available ≤ 0 := le_trans (min_le_left _ _) hq.le
        simpa [resolveSellQty, truthyRat, truthyInt, hq.ne] using this
      simp [hres]

/-- C4 witness: instantiating the rejection theorem on the default engine
with a sell request of -100 shares. -/
theorem C4_zero_or_missing_size_rejected_witness :
    buy sA0 0 "600000" "X" 10 (some 0) none "" = (false, sA0) ∧
    buy sA0 0 "600000" "X" 10 none none "" = (false, sA0) ∧
    sell sA0 0 "600000" 10 (some (-100)) none "" = (false, sA0) :=
  C4_zero_or_missing_size_rejected sA0 0 "600000" "X" 10 "" (-100) (by norm_num)

/-- C6 (confirmed): a buy quoted at or beyond the up-limit band
(`price ≥ price × (1 + limit_up_ratio)`) is rejected with the state
unchanged, and a sell quoted at or beyond the down-limit band
(`price ≤ price × (1 + limit_down_ratio)`) is rejected with the state
unchanged — no trade executes at or through the configured price cap. -/
theorem C6_price_limit_rejected (s : EngineState) (date : ℕ)
    (code name : String) (price : ℚ) (quantity : Option ℤ) (amount : Option ℚ)
    (percent : Option ℚ) (reason : String) :
    (price ≥ get_limit_price s.cfg price .BUY →
      buy s date code name price quantity amount reason = (false, s)) ∧
    (price ≤ get_limit_price s.cfg price .SELL →
      sell s date code price quantity percent reason = (false, s)) := by
  constructor
  · intro h
    unfold buy
    cases hq : resolveBuyQty quantity amount price with
    | none => rfl
    | some q =>
        have hcb : can_buy s price q = false := by
          unfold can_buy
          simp [h]
        simp [hcb]
  · intro h
    unfold sell
    cases hp : alGet s.positions code with
    | none => rfl
    | some pos =>
        by_cases hq : resolveSellQty pos quantity percent ≤ 0
        · simp [hq]
        · simp [hq, h]

/-- C6 witness: at quoted price 0 both the up-limit band and the down-limit
band are hit, and both buy and sell are rejected on the default engine. -/
theorem C6_price_limit_rejected_witness :
    buy sA0 0 "600000" "X" 0 (some 100) none "" = (false, sA0) ∧
    sell sA0 0 "600000" 0 (some 100) none "" = (false, sA0) :=
  ⟨(C6_price_limit_rejected sA0 0 "600000" "X" 0 (some 100) none none "").1
      (by norm_num [get_limit_price, sA0, resetState, defaultConfig]),
   (C6_price_limit_rejected sA0 0 "600000" "X" 0 (some 100) none none "").2
      (by norm_num [get_limit_price, sA0, resetState, defaultConfig])⟩

/-- C10 (confirmed): `run` resets all mutable engine state before iterating,
so its outcome (end state and result record) depends only on the immutable
configuration — not on cash, positions, trades, equity curve, dates or
pending settlement left by earlier operations on the same engine. -/
theorem C10_run_depends_only_on_config (s₁ s₂ : EngineState) (closes : List ℚ)
    (strat : Strategy) (code name : String) (h : s₁.cfg = s₂.cfg) :
    run s₁ closes strat code name = run s₂ closes strat code name := by
  unfold run reset
  rw [h]

/-- C10 witness: two engines with the default configuration but different
mutable state produce identical runs. -/
theorem C10_run_depends_only_on_config_witness :
    run sA0 [10] (fun _ _ _ => none) "600000" "X" =
      run { cfg := defaultConfig, cash := 5, positions := [], trades := []
            equity_curve := [5], dates := [3], today_buy := [] } [10]
        (fun _ _ _ => none) "600000" "X" :=
  C10_run_depends_only_on_config _ _ _ _ _ _ rfl

lemma sell_eq (s : EngineState) (date : ℕ) (code : String) (price : ℚ)
    (qt : Option ℤ) (pc : Option ℚ) (reason : String) (pos : AStockPosition)
    (hpos : alGet s.positions code = some pos) :
    sell s date code price qt pc reason =
      if resolveSellQty pos qt pc ≤ 0 then (false, s)
      else if price ≤ get_limit_price s.cfg price .SELL then (false, s)
      else (true, execSell s date code pos price
        (resolveSellQty pos qt pc) reason) := by
  unfold sell
  rw [hpos]

lemma sell_resolved_full (s : EngineState) (date : ℕ) (code : String)
    (price : ℚ) (reason : String) (pos : AStockPosition)
    (qt : Option ℤ) (pc : Option ℚ)
    (hpos : alGet s.positions code = some pos)
    (hr : resolveSellQty pos qt pc = pos.available)
    (havail : 0 < pos.available)
    (hpl : ¬ price ≤ get_limit_price s.cfg price .SELL) :
    sell s date code price qt pc reason =
      (true, execSell s date code pos price pos.available reason) := by
  unfold sell
  rw [hpos]
  dsimp only
  rw [hr, if_neg (not_le.mpr havail), if_neg hpl]

lemma execSell_removes (s : EngineState) (date : ℕ) (code : String)
    (price : ℚ) (reason : String) (pos : AStockPosition)
    (hnd : (s.positions.map Prod.fst).Nodup)
    (hfull : pos.available = pos.quantity) :
    alGet ((execSell s date code pos price pos.available reason).positions)
      code = none := by
  dsimp only [execSell]
  rw [if_pos (by omega : pos.quantity - pos.available ≤ 0)]
  exact alGet_alErase_self _ _ hnd

/-- C5 (amended): for a held position whose full quantity is
settlement-available and whose quoted price is clear of the down-limit band,
selling exactly `available` succeeds and removes the position; but a sell
requesting `available + 1` is not rejected — the request is clamped to
`available`, executes, and removes the position as well, even though
`can_sell` reports the same request as infeasible. -/
theorem C5_sell_clamps_to_available (s : EngineState) (date : ℕ)
    (code : String) (price : ℚ) (reason : String) (pos : AStockPosition)
    (hpos : alGet s.positions code = some pos)
    (hnd : (s.positions.map Prod.fst).Nodup)
    (hfull : pos.available = pos.quantity) (hqpos : 0 < pos.quantity)
    (hpl : ¬ price ≤ get_limit_price s.cfg price .SELL) :
    (sell s date code price (some pos.available) none reason).1 = true ∧
    alGet ((sell s date code price (some pos.available) none
      reason).2).positions code = none ∧
    (sell s date code price (some (pos.available + 1)) none reason).1 = true ∧
    alGet ((sell s date code price (some (pos.available + 1)) none
      reason).2).positions code = none ∧
    can_sell s code (pos.available + 1) = false := by
  have havail : 0 < pos.available := hfull ▸ hqpos
  have hr1 : resolveSellQty pos (some pos.available) none = pos.available := by
    simp [resolveSellQty, truthyRat, truthyInt, havail.ne']
  have hr2 : resolveSellQty pos (some (pos.available + 1)) none =
      pos.available := by
    have hne : pos.available + 1 ≠ 0 := by omega
    have hmin : min (pos.available + 1) pos.available = pos.available :=
      min_eq_right (by omega)
    simp [resolveSellQty, truthyRat, truthyInt, hne, hmin]
  have h1 := sell_resolved_full s date code price reason pos
    (some pos.available) none hpos hr1 havail hpl
  have h2 := sell_resolved_full s date code price reason pos
    (some (pos.available + 1)) none hpos hr2 havail hpl
  have hcs : can_sell s code (pos.available + 1) = false := by
    unfold can_sell
    rw [hpos]
    dsimp only
    rw [if_pos (by omega : pos.available < pos.available + 1)]
  exact ⟨(by rw [h1]),
    (by rw [h1]; exact execSell_removes s date code price reason pos hnd hfull),
    (by rw [h2]),
    (by rw [h2]; exact execSell_removes s date code price reason pos hnd hfull),
    hcs⟩

/-- C5 witness: instantiating the clamping theorem on the fully settled
200-share position of `sC2` at quoted price 10. -/
theorem C5_sell_clamps_to_available_witness :
    (sell sC2 1 "600000" 10 (some 200) none "").1 = true ∧
    alGet ((sell sC2 1 "600000" 10 (some 200) none "").2).positions
      "600000" = none ∧
    (sell sC2 1 "600000" 10 (some (200 + 1)) none "").1 = true ∧
    alGet ((sell sC2 1 "600000" 10 (some (200 + 1)) none "").2).positions
      "600000" = none ∧
    can_sell sC2 "600000" (200 + 1) = false :=
  C5_sell_clamps_to_available sC2 1 "600000" 10 ""
    ⟨"600000", "X", 200, 1001 / 100, 200, 0⟩
    (by rw [sC2_eq]; norm_num [alGet])
    (by rw [sC2_eq]; norm_num)
    rfl (by norm_num)
    (by rw [sC2_eq]; norm_num [get_limit_price, defaultConfig])

/-- C7 (amended): the terminal liquidation of `run` removes a still-open
position only when its full quantity is settlement-available (and the final
close is clear of the down-limit band); the liquidation never touches the
equity curve, so the reported final capital is the last equity snapshot
recorded before the liquidation (a position bought on the final period, with
available 0, stays open — see the counterexample). -/
theorem C7_final_liquidation_when_available (closes : List ℚ) (code : String)
    (s : EngineState) (pos : AStockPosition) (p : ℚ)
    (hpos : alGet s.positions code = some pos)
    (hnd : (s.positions.map Prod.fst).Nodup)
    (hfull : pos.available = pos.quantity) (hqpos : 0 < pos.quantity)
    (hlast : closes.getLast? = some p)
    (hpl : ¬ p ≤ get_limit_price s.cfg p .SELL) :
    alGet ((finalLiquidate closes code s).positions) code = none ∧
    (finalLiquidate closes code s).equity_curve = s.equity_curve ∧
    (calculate_result (finalLiquidate closes code s)).map
      ResultStats.final_capital = s.equity_curve.getLast? := by
  have havail : 0 < pos.available := hfull ▸ hqpos
  have hr : resolveSellQty pos none none = pos.available := by
    simp [resolveSellQty, truthyRat, truthyInt]
  have hfl : finalLiquidate closes code s =
      execSell s (closes.length - 1) code pos p pos.available
        "回测结束平仓" := by
    unfold finalLiquidate
    rw [hpos]
    dsimp only
    rw [hlast]
    dsimp only
    rw [sell_resolved_full s (closes.length - 1) code p "回测结束平仓" pos
      none none hpos hr havail hpl]
  have hremoved : alGet ((finalLiquidate closes code s).positions) code =
      none := by
    rw [hfl]
    exact execSell_removes s (closes.length - 1) code p "回测结束平仓" pos
      hnd hfull
  have hcfg : (finalLiquidate closes code s).cfg = s.cfg := by
    rw [hfl]; rfl
  have heq : (finalLiquidate closes code s).equity_curve = s.equity_curve := by
    rw [hfl]; rfl
  refine ⟨hremoved, heq, ?_⟩
  unfold calculate_result
  rw [heq, hcfg]
  cases s.equity_curve with
  | nil => rfl
  | cons a t =>
      simp only [Option.map_some]
      rw [List.getLastD_eq_getLast?]
      cases hl : (a :: t).getLast? with
      | none => exact absurd hl (by simp)
      | some x => rfl

/-- C7 witness: instantiating the terminal-liquidation theorem on the fully
settled 200-share position of `sC2` with final close 10. -/
theorem C7_final_liquidation_when_available_witness :
    alGet ((finalLiquidate [10] "600000" sC2).positions) "600000" = none ∧
    (finalLiquidate [10] "600000" sC2).equity_curve = sC2.equity_curve ∧
    (calculate_result (finalLiquidate [10] "600000" sC2)).map
      ResultStats.final_capital = sC2.equity_curve.getLast? :=
  C7_final_liquidation_when_available [10] "600000" sC2
    ⟨"600000", "X", 200, 1001 / 100, 200, 0⟩ 10
    (by rw [sC2_eq]; norm_num [alGet])
    (by rw [sC2_eq]; norm_num)
    rfl (by norm_num) rfl
    (by rw [sC2_eq]; norm_num [get_limit_price, defaultConfig])

/-- A sequence of buys of the same instrument, each with an explicit quantity
at period 0 (only the ledger arithmetic matters here). -/
def buySeq (code name : String) : List (ℚ × ℤ) → EngineState → EngineState
  | [], s => s
  | pq :: rest, s =>
      buySeq code name rest (buy s 0 code name pq.1 (some pq.2) none "").2

/-- Whether every buy of the sequence succeeds. -/
def buySeqOkB (code name : String) : List (ℚ × ℤ) → EngineState → Bool
  | [], _ => true
  | pq :: rest, s =>
      (buy s 0 code name pq.1 (some pq.2) none "").1 &&
        buySeqOkB code name rest (buy s 0 code name pq.1 (some pq.2) none "").2

/-- Whether every requested quantity is a positive whole number of lots
(so the lot-rounding step of `buy` leaves it unchanged). -/
def lotOkB : List (ℚ × ℤ) → Bool
  | [] => true
  | pq :: rest =>
      (decide (0 < pq.2) && decide (pq.2 % 100 = 0)) && lotOkB rest

lemma resolveBuyQty_lot (price : ℚ) (q : ℤ) (hq : q ≠ 0)
    (hm : q % 100 = 0) : resolveBuyQty (some q) none price = some q := by
  simp [resolveBuyQty, truthyInt, truthyRat, hm, hq]

lemma buy_cfg_preserved (s : EngineState) (date : ℕ) (code name : String)
    (price : ℚ) (quantity : Option ℤ) (amount : Option ℚ) (reason : String) :
    ((buy s date code name price quantity amount reason).2).cfg = s.cfg := by
  unfold buy
  cases resolveBuyQty quantity amount price with
  | none => rfl
  | some q =>
      dsimp only
      by_cases h : can_buy s price q = true
      · rw [if_pos h]
        exact rfl
      · rw [if_neg h]

lemma buy_step_existing (s : EngineState) (code name : String) (price : ℚ)
    (q : ℤ) (pos : AStockPosition) (hq : q ≠ 0) (hm : q % 100 = 0)
    (hpos : alGet s.positions code = some pos)
    (hok : (buy s 0 code name price (some q) none "").1 = true) :
    alGet ((buy s 0 code name price (some q) none "").2).positions code =
      some { pos with
        quantity := pos.quantity + q
        avg_cost := (pos.avg_cost * (pos.quantity : ℚ) +
          price * (1 + s.cfg.slippage) * (q : ℚ)) /
            (((pos.quantity + q : ℤ) : ℚ))
        available := pos.quantity + q } := by
  unfold buy at hok ⊢
  rw [resolveBuyQty_lot price q hq hm] at hok ⊢
  dsimp only at hok ⊢
  by_cases hcb : can_buy s price q = true
  · rw [if_pos hcb]
    dsimp only [execBuy]
    rw [hpos]
    dsimp only
    rw [alGet_alUpdate_self]
  · rw [if_neg hcb] at hok
    exact absurd hok (by simp)

lemma buy_step_fresh (s : EngineState) (code name : String) (price : ℚ)
    (q : ℤ) (hq : q ≠ 0) (hm : q % 100 = 0)
    (hpos : alGet s.positions code = none)
    (hok : (buy s 0 code name price (some q) none "").1 = true) :
    alGet ((buy s 0 code name price (some q) none "").2).positions code =
      some ⟨code, name, q, price * (1 + s.cfg.slippage), 0, 0⟩ := by
  unfold buy at hok ⊢
  rw [resolveBuyQty_lot price q hq hm] at hok ⊢
  dsimp only at hok ⊢
  by_cases hcb : can_buy s price q = true
  · rw [if_pos hcb]
    dsimp only [execBuy]
    rw [hpos]
    dsimp only
    rw [alGet_alUpdate_self]
  · rw [if_neg hcb] at hok
    exact absurd hok (by simp)

lemma buySeq_accum (code name : String) :
    ∀ (l : List (ℚ × ℤ)) (s : EngineState) (pos : AStockPosition),
      alGet s.positions code = some pos → 0 < pos.quantity →
      buySeqOkB code name l s = true → lotOkB l = true →
      ∃ pos', alGet ((buySeq code name l s).positions) code = some pos' ∧
        pos'.quantity = pos.quantity + (l.map Prod.snd).sum ∧
        0 < pos'.quantity ∧
        pos'.avg_cost * (pos'.quantity : ℚ) =
          pos.avg_cost * (pos.quantity : ℚ) +
            (l.map (fun pq =>
              pq.1 * (1 + s.cfg.slippage) * (pq.2 : ℚ))).sum := by
  intro l
  induction l with
  | nil =>
      intro s pos hpos hq _ _
      exact ⟨pos, hpos, by simp, hq, by simp⟩
  | cons pq rest ih =>
      intro s pos hpos hq hok hlot
      simp only [buySeqOkB, Bool.and_eq_true] at hok
      obtain ⟨hok1, hokrest⟩ := hok
      simp only [lotOkB, Bool.and_eq_true, decide_eq_true_eq] at hlot
      obtain ⟨⟨hq2pos, hq2mod⟩, hlotrest⟩ := hlot
      have hpos1 := buy_step_existing s code name pq.1 pq.2 pos hq2pos.ne'
        hq2mod hpos hok1
      have hcfg1 : ((buy s 0 code name pq.1 (some pq.2) none "").2).cfg =
          s.cfg := buy_cfg_preserved s 0 code name pq.1 (some pq.2) none ""
      have hq1pos : (0 : ℤ) < pos.quantity + pq.2 := by omega
      obtain ⟨pos', hget, hqty, hqpos', havg⟩ :=
        ih (buy s 0 code name pq.1 (some pq.2) none "").2 _ hpos1 hq1pos
          hokrest hlotrest
      refine ⟨pos', ?_, ?_, hqpos', ?_⟩
      · simpa [buySeq] using hget
      · have hqty2 : pos'.quantity = pos.quantity + pq.2 +
            (rest.map Prod.snd).sum := by simpa using hqty
        rw [hqty2]
        simp only [List.map_cons, List.sum_cons]
        omega
      · have hden : (((pos.quantity + pq.2 : ℤ) : ℚ)) ≠ 0 := by
          exact_mod_cast hq1pos.ne'
        have havg2 : pos'.avg_cost * (pos'.quantity : ℚ) =
            (pos.avg_cost * (pos.quantity : ℚ) +
                pq.1 * (1 + s.cfg.slippage) * (pq.2 : ℚ)) /
                  ((pos.quantity + pq.2 : ℤ) : ℚ) *
                ((pos.quantity + pq.2 : ℤ) : ℚ) +
              (rest.map (fun x =>
                x.1 * (1 + s.cfg.slippage) * (x.2 : ℚ))).sum := by
          simpa [hcfg1] using havg
        rw [havg2, div_mul_cancel₀ _ hden]
        simp only [List.map_cons, List.sum_cons]
        ring

/-- C8 (amended): the weighted-average cost obeys the incremental update
`(old_cost·old_qty + exec_price·added_qty) / new_qty` on every buy into an
existing position, and no sell ever changes the cost basis of the remaining
position; consequently, over buys with no intervening sell the cost equals
`Σ(exec_price_i × qty_i) / Σ(qty_i)` since the position was opened — with
interleaved partial sells the summation form fails (see the
counterexample). -/
theorem C8_weighted_average_cost :
    (∀ (code name : String) (p1 : ℚ) (q1 : ℤ) (rest : List (ℚ × ℤ))
      (s : EngineState),
      alGet s.positions code = none →
      buySeqOkB code name ((p1, q1) :: rest) s = true →
      lotOkB ((p1, q1) :: rest) = true →
      (alGet ((buySeq code name ((p1, q1) :: rest) s).positions) code).map
          AStockPosition.avg_cost =
        some ((((p1, q1) :: rest).map (fun pq =>
            pq.1 * (1 + s.cfg.slippage) * (pq.2 : ℚ))).sum /
          (((((p1, q1) :: rest).map Prod.snd).sum : ℤ) : ℚ))) ∧
    (∀ (s : EngineState) (date : ℕ) (code : String) (price : ℚ)
      (qt : Option ℤ) (pc : Option ℚ) (reason : String)
      (pos pos' : AStockPosition),
      alGet s.positions code = some pos →
      (s.positions.map Prod.fst).Nodup →
      alGet ((sell s date code price qt pc reason).2).positions code =
        some pos' →
      pos'.avg_cost = pos.avg_cost) := by
  constructor
  · intro code name p1 q1 rest s hnone hok hlot
    simp only [buySeqOkB, Bool.and_eq_true] at hok
    obtain ⟨hok1, hokrest⟩ := hok
    simp only [lotOkB, Bool.and_eq_true, decide_eq_true_eq] at hlot
    obtain ⟨⟨hq1pos, hq1mod⟩, hlotrest⟩ := hlot
    have hpos1 := buy_step_fresh s code name p1 q1 hq1pos.ne' hq1mod hnone hok1
    have hcfg1 : ((buy s 0 code name p1 (some q1) none "").2).cfg = s.cfg :=
      buy_cfg_preserved s 0 code name p1 (some q1) none ""
    obtain ⟨pos', hget, hqty, hqpos', havg⟩ :=
      buySeq_accum code name rest
        (buy s 0 code name p1 (some q1) none "").2
        ⟨code, name, q1, p1 * (1 + s.cfg.slippage), 0, 0⟩
        hpos1 hq1pos hokrest hlotrest
    have hgetfull : alGet
        ((buySeq code name ((p1, q1) :: rest) s).positions) code =
        some pos' := by simpa [buySeq] using hget
    have hqty' : pos'.quantity = q1 + (rest.map Prod.snd).sum := by
      simpa using hqty
    have hden : ((((q1 + (rest.map Prod.snd).sum : ℤ)) : ℚ)) ≠ 0 := by
      rw [← hqty']
      exact_mod_cast hqpos'.ne'
    have havg' : pos'.avg_cost * (((q1 + (rest.map Prod.snd).sum : ℤ)) : ℚ) =
        p1 * (1 + s.cfg.slippage) * (q1 : ℚ) +
          (rest.map (fun pq =>
            pq.1 * (1 + s.cfg.slippage) * (pq.2 : ℚ))).sum := by
      rw [← hqty']
      simpa [hcfg1] using havg
    rw [hgetfull, Option.map_some']
    refine congrArg some ?_
    simp only [List.map_cons, List.sum_cons]
    rw [eq_div_iff hden]
    exact havg'
  · intro s date code price qt pc reason pos pos' hpos hnd hpos'
    rw [sell_eq s date code price qt pc reason pos hpos] at hpos'
    by_cases hq0 : resolveSellQty pos qt pc ≤ 0
    · rw [if_pos hq0] at hpos'
      rw [hpos] at hpos'
      injection hpos' with h
      rw [← h]
    · rw [if_neg hq0] at hpos'
      by_cases hpl : price ≤ get_limit_price s.cfg price .SELL
      · rw [if_pos hpl] at hpos'
        rw [hpos] at hpos'
        injection hpos' with h
        rw [← h]
      · rw [if_neg hpl] at hpos'
        dsimp only [execSell] at hpos'
        by_cases hnewq : pos.quantity - resolveSellQty pos qt pc ≤ 0
        · rw [if_pos hnewq] at hpos'
          rw [alGet_alErase_self _ _ hnd] at hpos'
          exact absurd hpos' (by simp)
        · rw [if_neg hnewq] at hpos'
          rw [alGet_alUpdate_self] at hpos'
          injection hpos' with h
          rw [← h]

/-- C8 witness: instantiating the summation form on two consecutive buys
(100 shares at 10, then 100 at 20) from an empty book, and the
sell-invariance on the 50-share partial sell of scenario D. -/
theorem C8_weighted_average_cost_witness :
    (alGet ((buySeq "600000" "X" [(10, 100), (20, 100)] sA0).positions)
        "600000").map AStockPosition.avg_cost =
      some ((([((10 : ℚ), (100 : ℤ)), (20, 100)]).map (fun pq =>
          pq.1 * (1 + sA0.cfg.slippage) * (pq.2 : ℚ))).sum /
        ((((([((10 : ℚ), (100 : ℤ)), (20, 100)]).map Prod.snd).sum : ℤ) :
          ℚ))) ∧
    AStockPosition.avg_cost ⟨"600000", "X", 50, 1001 / 100, 50, 0⟩ =
      AStockPosition.avg_cost ⟨"600000", "X", 100, 1001 / 100, 100, 0⟩ := by
  constructor
  · exact C8_weighted_average_cost.1 "600000" "X" 10 100 [(20, 100)] sA0
      (by rfl)
      (by norm_num [buySeqOkB, buy, resolveBuyQty, can_buy, execBuy,
        calculate_commission, get_limit_price, truthyInt, truthyRat, alGet,
        alUpdate, sA0, resetState, defaultConfig, max_def])
      (by decide)
  · exact C8_weighted_average_cost.2 sA2 1 "600000" 10 (some 50) none ""
      ⟨"600000", "X", 100, 1001 / 100, 100, 0⟩
      ⟨"600000", "X", 50, 1001 / 100, 50, 0⟩
      (by rw [sA2_eq]; norm_num [alGet])
      (by rw [sA2_eq]; norm_num)
      (by show alGet sD3.positions "600000" = _
          rw [sD3_eq]; norm_num [alGet])

/-- C9 counterexample: with exactly one return the pandas standard deviation
is NaN, the `std == 0` guard does not fire, and both ratios evaluate to NaN
rather than the claimed 0 (for Sortino, one single negative return). -/
theorem C9_single_return_gives_nan :
    calculate_sharpe (3 / 100) 252 [1] = none ∧
    calculate_sortino (3 / 100) 252 [-1] = none := by
  constructor
  · have hstd : stdEqZeroB [1] = false := rfl
    have h1 : pandasStd [1] = none := by unfold pandasStd; norm_num
    unfold calculate_sharpe
    rw [if_neg (by simp [hstd])]
    dsimp only
    rw [h1]
  · have hd : (([(-1 : ℚ)]).filter (fun r => r < 0)) = [-1] := by
      norm_num [List.filter]
    have hstd : stdEqZeroB [(-1 : ℚ)] = false := rfl
    have h1 : pandasStd [(-1 : ℚ)] = none := by unfold pandasStd; norm_num
    unfold calculate_sortino
    rw [if_neg (by norm_num)]
    dsimp only
    rw [hd, if_neg (by simp [hstd]), h1]

lemma sum_of_sq_zero (l : List ℚ) (c : ℚ)
    (h : (l.map (fun x => (x - c) ^ 2)).sum = 0) : ∀ x ∈ l, x = c := by
  induction l with
  | nil => simp
  | cons a t ih =>
      simp only [List.map_cons, List.sum_cons] at h
      have hnn : 0 ≤ ((t.map (fun x => (x - c) ^ 2)).sum) := by
        apply List.sum_nonneg
        intro x hx
        simp only [List.mem_map] at hx
        obtain ⟨y, _, rfl⟩ := hx
        positivity
      have ha : (a - c) ^ 2 = 0 := by nlinarith [sq_nonneg (a - c)]
      have ht : (t.map (fun x => (x - c) ^ 2)).sum = 0 := by
        nlinarith [sq_nonneg (a - c)]
      intro x hx
      rcases List.mem_cons.mp hx with rfl | hx
      · have hz := (pow_eq_zero_iff two_ne_zero).mp ha
        linarith [sub_eq_zero.mp hz]
      · exact ih ht x hx

lemma sampleVar_zero_all_eq (l : List ℚ) (h2 : 2 ≤ l.length)
    (hv : sampleVar l = 0) : ∀ x ∈ l, x = seriesMean l := by
  unfold sampleVar at hv
  have hden : ((l.length : ℚ) - 1) ≠ 0 := by
    have h2' : (2 : ℚ) ≤ (l.length : ℚ) := by exact_mod_cast h2
    intro hc
    linarith
  rw [div_eq_zero_iff] at hv
  rcases hv with hnum | hd
  · exact sum_of_sq_zero l _ hnum
  · exact absurd hd hden

/-- C9 (amended): Sharpe and Sortino both return exactly 0 on an empty return
series and on any zero-variance series of at least two returns; a series of
exactly one return yields NaN, not 0, for Sharpe (and for Sortino whenever
exactly one return is negative) — see the counterexample. -/
theorem C9_sharpe_sortino_zero_cases (rf : ℚ) (ppy : ℕ) (rs : List ℚ)
    (h : rs.length = 0 ∨ (2 ≤ rs.length ∧ sampleVar rs = 0)) :
    calculate_sharpe rf ppy rs = some 0 ∧
    calculate_sortino rf ppy rs = some 0 := by
  rcases h with h0 | ⟨h2, hv⟩
  · have hnil : rs = [] := List.length_eq_zero.mp h0
    subst hnil
    constructor
    · simp [calculate_sharpe]
    · simp [calculate_sortino]
  · have hstd : stdEqZeroB rs = true := by
      simp only [stdEqZeroB, Bool.and_eq_true, decide_eq_true_eq]
      exact ⟨h2, hv⟩
    constructor
    · unfold calculate_sharpe
      rw [if_pos (Or.inr hstd)]
    · unfold calculate_sortino
      rw [if_neg (by omega : ¬ rs.length = 0)]
      dsimp only
      have hall : ∀ x ∈ rs, x = seriesMean rs := sampleVar_zero_all_eq rs h2 hv
      by_cases hm : seriesMean rs < 0
      · have hdown : rs.filter (fun r => r < 0) = rs := by
          apply List.filter_eq_self.mpr
          intro a ha
          have : a < 0 := by rw [hall a ha]; exact hm
          simpa using this
        rw [hdown, if_pos (Or.inr hstd)]
      · have hdown : rs.filter (fun r => r < 0) = [] := by
          rw [List.filter_eq_nil_iff]
          intro a ha
          have : ¬ a < 0 := by rw [hall a ha]; exact hm
          simpa using this
        rw [hdown]
        simp

/-- C9 witness: the zero-variance two-element series `[5, 5]` gives Sharpe
and Sortino exactly 0. -/
theorem C9_sharpe_sortino_zero_cases_witness :
    calculate_sharpe (3 / 100) 252 [5, 5] = some 0 ∧
    calculate_sortino (3 / 100) 252 [5, 5] = some 0 :=
  C9_sharpe_sortino_zero_cases (3 / 100) 252 [5, 5]
    (Or.inr ⟨by norm_num, by norm_num [sampleVar, seriesMean]⟩)

end QuantLab
